import Mathlib

/-!
Verification of the data-grid engine of the `components` repository:
the query/page data model, the asynchronous fetch controller
(`SmartTableController` in `app/core/ui/tables.py`), the reference
in-memory data source (`InMemoryTablePort`, same file) and the chunked
export use case (`ExportTableUseCase` in
`app/core/use_cases/export_table.py`).

Modelling conventions:
* Python `dict` rows become association lists `List (String × Value)`;
  `dict.get(k)` (default `None`) becomes lookup with default `Value.none`.
* Machine integers become `Nat`/`Int`; Python division/ceil is modelled
  exactly on `ℚ` where the source uses true division.
* Unicode accent stripping (`_norm_text(·, True)`, i.e. NFKD
  decomposition followed by dropping combining marks) is kept abstract:
  every function that uses it takes a parameter `norm : String → String`.
  No claim depends on its internals.
* Python regular expressions are kept abstract: the in-memory port takes
  an `engine : String → Bool → Option (String → Bool)` mapping
  (pattern, case_sensitive) to a compiled matcher, or `none` when
  `re.compile` raises `re.error`.
* Qt signal emissions become explicit event lists; a dispatched fetch
  task becomes an `Option (TableQuery × Nat)` (query, request id).
* Python's `sorted` is stable; `sorted(key=k)` is modelled by
  `List.insertionSort` (stable for a total preorder), and
  `sorted(key=k, reverse=True)` by reverse / stable sort / reverse,
  which is how CPython implements it (equal keys keep their order).
* Generators are evaluated eagerly: the lazy row sequence handed to the
  exporter, the queries issued to the data port, and the progress
  callbacks are returned as explicit lists, in emission order.
-/

/-- Cell values of table rows.  Covers the value kinds the demo data uses
(`None`, int, str, bool) plus lists (needed as the value of a membership
filter).  Floats are not modelled; no claim involves them. -/
inductive Value where
  | none
  | num (i : Int)
  | str (s : String)
  | bool (b : Bool)
  | list (vs : List Value)

/-- A row: an ordered field → value map (Python `dict`). -/
abbrev Row := List (String × Value)

/-- `dict.get(key)` with default `None`. -/
def rowGet (r : Row) (k : String) : Value :=
  match r.find? (fun kv => kv.1 == k) with
  | some kv => kv.2
  | Option.none => Value.none

/-- `dict.get(key)` as an `Option` (distinguishes a missing key). -/
def rowGet? (r : Row) (k : String) : Option Value :=
  (r.find? (fun kv => kv.1 == k)).map (fun kv => kv.2)

mutual
/-- `_safe_str` from `app/core/ui/tables.py`: `""` for `None`, else
`str(v)`.  The rendering of nested lists approximates Python `str`. -/
def safe_str : Value → String
  | Value.none => ""
  | Value.num i => toString i
  | Value.str s => s
  | Value.bool b => if b then "True" else "False"
  | Value.list vs => "[" ++ joinVals vs ++ "]"

/-- Comma-joined rendering of a list of values (helper of `safe_str`). -/
def joinVals : List Value → String
  | [] => ""
  | [v] => safe_str v
  | v :: vs => safe_str v ++ ", " ++ joinVals vs
end

mutual
/-- Python `==` on cell values, structurally (used by the `igual`
filter and by membership tests). -/
def valueEq : Value → Value → Bool
  | Value.none, Value.none => true
  | Value.num i, Value.num j => i == j
  | Value.str s, Value.str t => s == t
  | Value.bool a, Value.bool b => a == b
  | Value.list xs, Value.list ys => valueListEq xs ys
  | _, _ => false

/-- Element-wise `==` on value lists (helper of `valueEq`). -/
def valueListEq : List Value → List Value → Bool
  | [], [] => true
  | x :: xs, y :: ys => valueEq x y && valueListEq xs ys
  | _, _ => false
end

/-- `SortSpec` from `app/core/ui/tables.py`. -/
structure SortSpec where
  key : String
  ascending : Bool := true
deriving DecidableEq

/-- `FilterSpec` from `app/core/ui/tables.py`. -/
structure FilterSpec where
  key : String
  op : String
  value : Value

/-- `TableQuery` from `app/core/ui/tables.py`. -/
structure TableQuery where
  page : Nat
  page_size : Nat
  search_text : String := ""
  search_mode : String := "contem"
  search_case_sensitive : Bool := false
  search_accent_insensitive : Bool := true
  filters : List FilterSpec := []
  sort : List SortSpec := []
  searchable_keys : List String := []

/-- `TablePage` from `app/core/ui/tables.py`. -/
structure TablePage where
  rows : List Row
  total_rows : Nat
  page : Nat
  page_size : Nat

/-- Mutable state of `SmartTableController` (`app/core/ui/tables.py`,
`__init__`).  Field names follow the Python attributes. -/
structure CtrlState where
  page : Nat
  page_size : Nat
  total_rows : Nat
  search_text : String
  search_mode : String
  case_sensitive : Bool
  accent_insensitive : Bool
  filters : List FilterSpec
  sort : List SortSpec
  searchable_keys : List String
  request_id : Nat
  loading : Bool
  append_mode : Bool

/-- The controller's initial state (`SmartTableController.__init__`). -/
def initState : CtrlState :=
  { page := 1, page_size := 50, total_rows := 0,
    search_text := "", search_mode := "contem",
    case_sensitive := false, accent_insensitive := true,
    filters := [], sort := [], searchable_keys := [],
    request_id := 0, loading := false, append_mode := false }

/-- Listener callbacks of the controller (`changed`, `loading_changed`,
`error` signals). -/
inductive CtrlEvent where
  | changed (page : TablePage) (request_id : Nat)
  | loading_changed (v : Bool)
  | error (msg : String)

/-- A dispatched fetch task: snapshot query and request id. -/
abbrev Dispatch := TableQuery × Nat

/-- `SmartTableController._emit_loading`. -/
def emit_loading (v : Bool) (st : CtrlState) : CtrlState × List CtrlEvent :=
  if st.loading = v then (st, [])
  else ({ st with loading := v }, [CtrlEvent.loading_changed v])

/-- `SmartTableController._make_query`: the search text is lower-cased
when not case sensitive and accent-stripped (`norm`) when accent
insensitive, before being placed into the query. -/
def make_query (norm : String → String) (st : CtrlState) : TableQuery :=
  let s := st.search_text
  let s := if st.case_sensitive then s else s.toLower
  let s := if st.accent_insensitive then norm s else s
  { page := st.page, page_size := st.page_size,
    search_text := s, search_mode := st.search_mode,
    search_case_sensitive := st.case_sensitive,
    search_accent_insensitive := st.accent_insensitive,
    filters := st.filters, sort := st.sort,
    searchable_keys := st.searchable_keys }

/-- `SmartTableController.refresh`: no-op when a fetch is in flight,
otherwise records the append flag, increments the request id, raises
`loading` and dispatches a fetch task with a snapshot query. -/
def refresh (norm : String → String) (append : Bool) (st : CtrlState) :
    CtrlState × List CtrlEvent × Option Dispatch :=
  if st.loading then (st, [], Option.none)
  else
    let st1 := { st with append_mode := append, request_id := st.request_id + 1 }
    let p := emit_loading true st1
    (p.1, p.2, some (make_query norm p.1, st1.request_id))

/-- `SmartTableController._on_ok`: a stale result (tag differs from the
current request id) is discarded silently; a fresh one updates
`total_rows`, clears `loading` and publishes the page. -/
def on_ok (pg : TablePage) (request_id : Nat) (st : CtrlState) :
    CtrlState × List CtrlEvent :=
  if request_id ≠ st.request_id then (st, [])
  else
    let st1 := { st with total_rows := pg.total_rows }
    let p := emit_loading false st1
    (p.1, p.2 ++ [CtrlEvent.changed pg request_id])

/-- `SmartTableController._on_fail`: a stale failure is discarded
silently; a fresh one clears `loading` and publishes the error message
(`_safe_str(exc)`, modelled as the message string itself). -/
def on_fail (msg : String) (request_id : Nat) (st : CtrlState) :
    CtrlState × List CtrlEvent :=
  if request_id ≠ st.request_id then (st, [])
  else
    let p := emit_loading false st
    (p.1, p.2 ++ [CtrlEvent.error msg])

/-- `SmartTableController.total_pages`. The source computes
`max(1, math.ceil(self._total_rows / self._page_size))` with true
division, guarded by `page_size <= 0`. -/
def total_pages (st : CtrlState) : Nat :=
  if st.page_size ≤ 0 then 1
  else max 1 ⌈(st.total_rows : ℚ) / (st.page_size : ℚ)⌉₊

/-- `SmartTableController.goto_page`: clamps the target to ≥ 1 and
issues a non-append fetch. -/
def goto_page (norm : String → String) (p : Int) (st : CtrlState) :
    CtrlState × List CtrlEvent × Option Dispatch :=
  refresh norm false { st with page := (max 1 p).toNat }

/-- `SmartTableController.set_search` (resets to page 1).  Python's
`text or ""` is the identity on strings. -/
def set_search (norm : String → String) (text mode : String)
    (case_sensitive accent_insensitive : Bool) (st : CtrlState) :
    CtrlState × List CtrlEvent × Option Dispatch :=
  goto_page norm 1 { st with
    search_text := text, search_mode := mode,
    case_sensitive := case_sensitive,
    accent_insensitive := accent_insensitive }

/-- `SmartTableController.set_filters` (resets to page 1). -/
def set_filters (norm : String → String) (fs : List FilterSpec) (st : CtrlState) :
    CtrlState × List CtrlEvent × Option Dispatch :=
  goto_page norm 1 { st with filters := fs }

/-- `SmartTableController.add_filter` (resets to page 1). -/
def add_filter (norm : String → String) (f : FilterSpec) (st : CtrlState) :
    CtrlState × List CtrlEvent × Option Dispatch :=
  goto_page norm 1 { st with filters := st.filters ++ [f] }

/-- `SmartTableController.clear_filters` (resets to page 1). -/
def clear_filters (norm : String → String) (st : CtrlState) :
    CtrlState × List CtrlEvent × Option Dispatch :=
  goto_page norm 1 { st with filters := [] }

/-- `SmartTableController.set_sort` (resets to page 1). -/
def set_sort (norm : String → String) (ss : List SortSpec) (st : CtrlState) :
    CtrlState × List CtrlEvent × Option Dispatch :=
  goto_page norm 1 { st with sort := ss }

/-- `SmartTableController.set_page_size`: clamps the size to ≥ 1, then
resets to page 1. -/
def set_page_size (norm : String → String) (n : Int) (st : CtrlState) :
    CtrlState × List CtrlEvent × Option Dispatch :=
  goto_page norm 1 { st with page_size := (max 1 n).toNat }

/-- `SmartTableController.set_searchable_keys` (resets to page 1). -/
def set_searchable_keys (norm : String → String) (ks : List String) (st : CtrlState) :
    CtrlState × List CtrlEvent × Option Dispatch :=
  goto_page norm 1 { st with searchable_keys := ks }

/-- `SmartTableController.next_page`: guarded only by the last-page
boundary (its dispatch is dropped by `refresh` while loading). -/
def next_page (norm : String → String) (st : CtrlState) :
    CtrlState × List CtrlEvent × Option Dispatch :=
  if st.page < total_pages st then refresh norm false { st with page := st.page + 1 }
  else (st, [], Option.none)

/-- `SmartTableController.prev_page`. -/
def prev_page (norm : String → String) (st : CtrlState) :
    CtrlState × List CtrlEvent × Option Dispatch :=
  if 1 < st.page then refresh norm false { st with page := st.page - 1 }
  else (st, [], Option.none)

/-- `SmartTableController.load_next_append`: no-op at the last page,
otherwise advances one page and fetches in append mode. -/
def load_next_append (norm : String → String) (st : CtrlState) :
    CtrlState × List CtrlEvent × Option Dispatch :=
  if total_pages st ≤ st.page then (st, [], Option.none)
  else refresh norm true { st with page := st.page + 1 }

/-! ## Reference in-memory data source (`InMemoryTablePort`) -/

/-- Infix (substring) test on character lists (models Python
`needle in haystack` on strings). -/
def subAt (n : List Char) : List Char → Bool
  | [] => n.isEmpty
  | c :: cs => n.isPrefixOf (c :: cs) || subAt n cs

/-- Python `needle in haystack` for strings. -/
def str_contains (needle hay : String) : Bool :=
  subAt needle.toList hay.toList

/-- `InMemoryTablePort._norm_cell`: the normalized text of one cell.
When not case sensitive and accent insensitive the source reads a
pre-normalized cache `{k: _norm_text(str(v).lower(), True)}` built from
the row's own keys (missing key defaults to `""`); otherwise it
normalizes `_safe_str(row.get(key, ""))` on demand. -/
def norm_cell (norm : String → String) (rows : List Row) (i : Nat) (k : String)
    (case_sensitive accent_insensitive : Bool) : String :=
  if rows.length ≤ i then ""
  else
    let r := rows.getD i []
    if ¬case_sensitive ∧ accent_insensitive then
      match rowGet? r k with
      | some v => norm ((safe_str v).toLower)
      | Option.none => ""
    else
      let v := match rowGet? r k with
               | some v => safe_str v
               | Option.none => ""
      let v := if case_sensitive then v else v.toLower
      if accent_insensitive then norm v else v

/-- The inner `match_norm` of `InMemoryTablePort.fetch_page`: modes
`igual` (equals), `comeca` (starts-with), `contem` (contains, also the
fallback for any other mode). -/
def match_norm (s mode base : String) : Bool :=
  if mode = "igual" then base == s
  else if mode = "comeca" then s.isPrefixOf base
  else str_contains s base

/-- The row at an index (`self._rows[i]`; indices are always in range in
the source). -/
def row_at (rows : List Row) (i : Nat) : Row := rows.getD i []

/-- The text-search phase of `InMemoryTablePort.fetch_page`.  With an
empty search text the index list passes through.  In `regex` mode the
pattern is compiled by `engine` (abstracting `re.compile` plus
`rx.search`); when compilation fails (`re.error`, `rx = None`) every row
is skipped (`continue`), so no row is kept.  Other modes compare
normalized cells with `match_norm`.  An empty `searchable_keys` means
all keys of each row. -/
def apply_search (norm : String → String)
    (engine : String → Bool → Option (String → Bool))
    (rows : List Row) (q : TableQuery) (idxs : List Nat) : List Nat :=
  if q.search_text = "" then idxs
  else if q.search_mode = "regex" then
    match engine q.search_text q.search_case_sensitive with
    | Option.none => []
    | some rx =>
      idxs.filter (fun i =>
        let r := row_at rows i
        let keys := if q.searchable_keys.isEmpty then r.map (fun kv => kv.1)
                    else q.searchable_keys
        keys.any (fun k => rx (safe_str (rowGet r k))))
  else
    idxs.filter (fun i =>
      let r := row_at rows i
      let keys := if q.searchable_keys.isEmpty then r.map (fun kv => kv.1)
                  else q.searchable_keys
      keys.any (fun k =>
        match_norm q.search_text q.search_mode
          (norm_cell norm rows i k q.search_case_sensitive
            q.search_accent_insensitive)))

/-- Numeric view of a value (Python treats `bool` as an `int`). -/
def num_val : Value → Option Int
  | Value.num i => some i
  | Value.bool b => some (if b then 1 else 0)
  | _ => Option.none

/-- Python `a < b` on cell values, restricted to the comparable cases
(number/number including booleans, string/string).  Mixed-type
comparisons, which raise `TypeError` in Python, are modelled as `false`;
no claim exercises them. -/
def py_lt (a b : Value) : Bool :=
  match num_val a, num_val b with
  | some x, some y => decide (x < y)
  | _, _ =>
    match a, b with
    | Value.str s, Value.str t => decide (s < t)
    | _, _ => false

/-- One filter of the filter phase of `InMemoryTablePort.fetch_page`.
Only the operators `igual`, `contem`, `gt` and `lt` have branches; any
other operator falls through the `if`/`elif` chain and leaves the index
list unchanged.  `gt`/`lt` exclude `None`/missing values
(`is not None`). -/
def filter_step (norm : String → String) (rows : List Row)
    (idxs : List Nat) (f : FilterSpec) : List Nat :=
  if f.op = "igual" then
    idxs.filter (fun i => valueEq (rowGet (row_at rows i) f.key) f.value)
  else if f.op = "contem" then
    let needle := norm ((safe_str f.value).toLower)
    idxs.filter (fun i => str_contains needle (norm_cell norm rows i f.key false true))
  else if f.op = "gt" then
    idxs.filter (fun i =>
      match rowGet? (row_at rows i) f.key with
      | some v => !(valueEq v Value.none) && py_lt f.value v
      | Option.none => false)
  else if f.op = "lt" then
    idxs.filter (fun i =>
      match rowGet? (row_at rows i) f.key with
      | some v => !(valueEq v Value.none) && py_lt v f.value
      | Option.none => false)
  else idxs

/-- The filter phase of `InMemoryTablePort.fetch_page`: the filters are
applied in turn (AND conjunction), each by one `filter_step`. -/
def apply_filters (norm : String → String) (rows : List Row)
    (fs : List FilterSpec) (idxs : List Nat) : List Nat :=
  fs.foldl (filter_step norm rows) idxs

/-- Codomain of the sort key: numbers (which compare numerically) and
strings (which compare as text).  Mixed number/string comparisons,
which raise `TypeError` in Python, are modelled by putting numbers
first; no claim exercises them. -/
inductive SVal where
  | num (i : Int)
  | str (s : String)
deriving DecidableEq

/-- Total comparison on `SVal` (see `SVal` on the mixed cases). -/
def sval_le : SVal → SVal → Bool
  | SVal.num i, SVal.num j => decide (i ≤ j)
  | SVal.str s, SVal.str t => decide (s ≤ t)
  | SVal.num _, SVal.str _ => true
  | SVal.str _, SVal.num _ => false

/-- The `sort_key` of `InMemoryTablePort.fetch_page`: `None` maps to
`(1, "")` (after everything), numbers (and booleans) to `(0, v)`,
everything else to `(0, _norm_text(str(v).lower(), True))`. -/
def sort_key (norm : String → String) : Value → Nat × SVal
  | Value.none => (1, SVal.str "")
  | Value.num i => (0, SVal.num i)
  | Value.bool b => (0, SVal.num (if b then 1 else 0))
  | v => (0, SVal.str (norm ((safe_str v).toLower)))

/-- Lexicographic comparison of sort keys. -/
def key_le (a b : Nat × SVal) : Bool :=
  if a.1 = b.1 then sval_le a.2 b.2 else decide (a.1 < b.1)

/-- Python's stable `sorted(xs, key=...)`, modelled by insertion sort
(stable for a total preorder, hence extensionally equal to any stable
sort, in particular Timsort). -/
def py_sorted (le : α → α → Bool) (l : List α) : List α :=
  l.insertionSort (fun a b => le a b = true)

/-- Python's `sorted(xs, key=..., reverse=True)`: CPython reverses,
stable-sorts ascending, and reverses again (equal keys keep their
original order). -/
def py_sorted_rev (le : α → α → Bool) (l : List α) : List α :=
  (py_sorted le l.reverse).reverse

/-- One pass of the sort loop of `InMemoryTablePort.fetch_page`:
`idxs = sorted(idxs, key=lambda i: sort_key(rows[i].get(srt.key)), reverse=not srt.ascending)`. -/
def sort_pass (norm : String → String) (rows : List Row) (srt : SortSpec)
    (idxs : List Nat) : List Nat :=
  let le := fun i j =>
    key_le (sort_key norm (rowGet (row_at rows i) srt.key))
           (sort_key norm (rowGet (row_at rows j) srt.key))
  if srt.ascending then py_sorted le idxs else py_sorted_rev le idxs

/-- The sort phase: `for srt in reversed(query.sort)` applies the LAST
spec first, so the FIRST spec is applied last and wins ties
(`foldr` has exactly that order). -/
def apply_sort (norm : String → String) (rows : List Row)
    (sort : List SortSpec) (idxs : List Nat) : List Nat :=
  sort.foldr (fun srt idxs => sort_pass norm rows srt idxs) idxs

/-- `InMemoryTablePort.fetch_page`: search, then filters, then sort,
then pagination (`idxs[(page-1)*page_size : page*page_size]`). -/
def fetch_page (norm : String → String)
    (engine : String → Bool → Option (String → Bool))
    (rows : List Row) (q : TableQuery) : TablePage :=
  let idxs := List.range rows.length
  let idxs := apply_search norm engine rows q idxs
  let idxs := apply_filters norm rows q.filters idxs
  let idxs := apply_sort norm rows q.sort idxs
  let total := idxs.length
  let start := (q.page - 1) * q.page_size
  let page_idxs := (idxs.drop start).take q.page_size
  { rows := page_idxs.map (row_at rows), total_rows := total,
    page := q.page, page_size := q.page_size }

/-- `fetch_page` with Python's raise/return channel made explicit
(`TableDataPort.fetch_page` "must fail by raising ... rather than
returning a partial or malformed Page").  In the modelled value domain
no branch of the source raises — in particular an invalid regex is
caught inside `fetch_page` — so every input returns `Except.ok`. -/
def fetch_page_exc (norm : String → String)
    (engine : String → Bool → Option (String → Bool))
    (rows : List Row) (q : TableQuery) : Except String TablePage :=
  Except.ok (fetch_page norm engine rows q)

/-- `true` when the row's value for `key` is `None`/missing. -/
def is_null_at (key : String) (r : Row) : Bool :=
  match rowGet r key with
  | Value.none => true
  | _ => false

/-- `None`-valued rows form a suffix: after dropping the leading
non-null rows, only null rows remain ("nulls sort last"). -/
def nulls_last (key : String) (rows : List Row) : Bool :=
  (rows.dropWhile (fun r => !is_null_at key r)).all (is_null_at key)

/-- `None`-valued rows form a prefix ("nulls sort first"). -/
def nulls_first (key : String) (rows : List Row) : Bool :=
  (rows.dropWhile (is_null_at key)).all (fun r => !is_null_at key r)

/-! ## Export use case (`app/core/use_cases/export_table.py`) -/

/-- `ExportRequest` from `app/core/use_cases/export_table.py`. -/
structure ExportRequest where
  query : TableQuery
  columns : List (String × String)
  mode : String
  fmt : String
  destination_path : String
  report_title : String := "Relatório"
  chunk_page_size : Nat := 1000

/-- `ExportTableUseCase._with_page`: copy every field of the query and
override only `page` and `page_size` (the source copies
`query.__dict__` and reconstructs the dataclass). -/
def with_page (q : TableQuery) (page page_size : Nat) : TableQuery :=
  { q with page := page, page_size := page_size }

/-- `ExportTableUseCase._summarize_query` (the generated human-readable
summary; Python wraps the search text in single quotes, elided here). -/
def summarize_query (q : TableQuery) : String :=
  let parts : List String := []
  let s := q.search_text.trim
  let parts := if s = "" then parts
               else parts ++ ["busca=" ++ s ++ " (" ++ q.search_mode ++ ")"]
  let parts := if q.filters.isEmpty then parts
               else parts ++ ["filtros=" ++ toString q.filters.length]
  let parts := if q.sort.isEmpty then parts
               else parts ++ ["ordenação=" ++ toString q.sort.length]
  String.intercalate " | " parts

/-- Python `str.lower()` (ASCII view), character by character. -/
def py_lower (s : String) : String := String.mk (s.data.map Char.toLower)

/-- Python `str.strip()`: drop leading and trailing whitespace. -/
def py_strip (s : String) : String :=
  String.mk
    (((s.data.dropWhile Char.isWhitespace).reverse.dropWhile
      Char.isWhitespace).reverse)

/-- `ExporterRegistry.get` (from `app/core/ports/exporter_registry.py`):
`(fmt or "").strip().lower()` keyword lookup; unknown formats raise.
The registry is modelled by its set of registered keywords. -/
def registry_get (registry : List String) (fmt : String) : Except String Unit :=
  let k := py_lower (py_strip fmt)
  if registry.contains k then Except.ok ()
  else Except.error ("Formato de exportação não suportado: " ++ fmt)

/-- The per-row progress calls produced while yielding `n` rows when
`done` rows were already yielded: `(done+1, total), …, (done+n, total)`
(the source increments `done` and then calls `progress(done, total)`
after each yielded row). -/
def prog_of (done n total : Nat) : List (Nat × Nat) :=
  (List.range n).map (fun i => (done + i + 1, total))

/-- The `while done < total` loop of
`ExportTableUseCase._iter_all_results`, starting at page `page` with
`done` rows already yielded: fetch the chunk, stop if it is empty,
otherwise yield its rows (reporting progress) and continue on the next
page.  Returns (rows yielded, queries fetched, progress calls).
Termination: each pass with a nonempty chunk advances `done` by at
least one toward `total`. -/
def iter_chunks (port : TableQuery → TablePage) (q : TableQuery) (c : Nat)
    (total page done : Nat) : List Row × List TableQuery × List (Nat × Nat) :=
  if h : done < total then
    let cq := with_page q page c
    let pg := port cq
    if hr : pg.rows.isEmpty then ([], [cq], [])
    else
      let rest := iter_chunks port q c total (page + 1) (done + pg.rows.length)
      (pg.rows ++ rest.1, cq :: rest.2.1,
       prog_of done pg.rows.length total ++ rest.2.2)
  else ([], [], [])
termination_by total - done
decreasing_by
  simp_wf
  have hlen : (port (with_page q page c)).rows ≠ [] := by simpa using hr
  have hpos : 0 < (port (with_page q page c)).rows.length := List.length_pos.mpr hlen
  omega

/-- `ExportTableUseCase._iter_all_results`: yield the already-fetched
first page (reporting progress), then loop from page 2. -/
def iter_all_results (port : TableQuery → TablePage) (req : ExportRequest)
    (first_page : TablePage) (total : Nat) :
    List Row × List TableQuery × List (Nat × Nat) :=
  let n := first_page.rows.length
  let rest := iter_chunks port req.query req.chunk_page_size total 2 n
  (first_page.rows ++ rest.1, rest.2.1, prog_of 0 n total ++ rest.2.2)

/-- What `ExportTableUseCase.execute` produces, seen from its
collaborators: the lazy row sequence handed to the exporter (evaluated),
the chunk queries issued to the data port, the progress calls (in
order, including the initial `progress(0, total)`), and the total row
count that goes into the export metadata. -/
structure ExportOutcome where
  rows : List Row
  queries : List TableQuery
  progress : List (Nat × Nat)
  total : Nat

/-- `ExportTableUseCase.execute`.  The exporter is resolved first
(unsupported format raises); `current_page` mode requires
`current_page_rows` and yields exactly those rows; any other mode is the
`all_results` path, which requires `data_port`, fetches page 1 at
`chunk_page_size` to learn `total_rows` and then iterates.  Timing and
document writing are external effects outside the model; the returned
outcome is what the use case feeds the exporter and callbacks. -/
def execute (registry : List String) (req : ExportRequest)
    (data_port : Option (TableQuery → TablePage))
    (current_page_rows : Option (List Row)) : Except String ExportOutcome :=
  match registry_get registry req.fmt with
  | Except.error e => Except.error e
  | Except.ok () =>
    if req.mode = "current_page" then
      match current_page_rows with
      | Option.none =>
        Except.error "Exportação current_page requer current_page_rows."
      | some rows =>
        let total := rows.length
        Except.ok { rows := rows, queries := [],
                    progress := (0, total) :: prog_of 0 rows.length total,
                    total := total }
    else
      match data_port with
      | Option.none =>
        Except.error "Exportação all_results requer data_port para paginar os resultados."
      | some port =>
        let first_query := with_page req.query 1 req.chunk_page_size
        let first_page := port first_query
        let total := first_page.total_rows
        let rest := iter_all_results port req first_page total
        Except.ok { rows := rest.1, queries := first_query :: rest.2.1,
                    progress := (0, total) :: rest.2.2, total := total }

/-- The page slice an honest paginated source returns:
`all[(page-1)*page_size : page*page_size]`. -/
def slice_page (all : List Row) (page page_size : Nat) : List Row :=
  (all.drop ((page - 1) * page_size)).take page_size

/-- A data port is consistent with the row list `all` when every fetch
returns the corresponding slice of `all` and reports `len(all)` as the
total ("a consistent source"). -/
def consistent_port (all : List Row) (port : TableQuery → TablePage) : Prop :=
  ∀ q : TableQuery,
    port q = { rows := slice_page all q.page q.page_size,
               total_rows := all.length, page := q.page, page_size := q.page_size }

/-- `ceil(t / c)` on naturals. -/
def cdiv (t c : Nat) : Nat := (t + c - 1) / c

/-! ## Helper lemmas -/

/-- `refresh` never changes the current page. -/
theorem refresh_page_eq (norm : String → String) (append : Bool) (st : CtrlState) :
    (refresh norm append st).1.page = st.page := by
  by_cases h : st.loading <;> simp [refresh, emit_loading, h]

/-- `refresh` never changes the page size. -/
theorem refresh_page_size_eq (norm : String → String) (append : Bool) (st : CtrlState) :
    (refresh norm append st).1.page_size = st.page_size := by
  by_cases h : st.loading <;> simp [refresh, emit_loading, h]

/-! ## Claims -/

/-- Claim C1: a fetch completion (success or failure) whose tagged
request id differs from the controller's current request id is discarded
silently — the controller state is unchanged and no listener callback
(`changed`, `loading_changed`, `error`) is emitted. -/
theorem c1_stale_result_discarded (st : CtrlState) (pg : TablePage)
    (rid : Nat) (msg : String) (h : rid ≠ st.request_id) :
    on_ok pg rid st = (st, []) ∧ on_fail msg rid st = (st, []) := by
  refine ⟨?_, ?_⟩ <;> simp [on_ok, on_fail, h]

/-- Witness for C1 at a concrete stale completion (tag 5 against current
request id 0). -/
theorem c1_stale_result_discarded_witness :
    on_ok { rows := [], total_rows := 0, page := 1, page_size := 50 } 5 initState
      = (initState, []) ∧
    on_fail "boom" 5 initState = (initState, []) :=
  c1_stale_result_discarded initState
    { rows := [], total_rows := 0, page := 1, page_size := 50 } 5 "boom" (by decide)

/-- Counterexample to C2 as stated: `refresh` does NOT increment the
request id from every controller state — when a fetch is already in
flight (`loading = true`) it returns without incrementing the id,
without touching state and without dispatching, so dispatch IS blocked
by an in-flight fetch. -/
theorem c2_refresh_blocked_cex :
    refresh (fun s => s) false { initState with loading := true }
      = ({ initState with loading := true }, [], Option.none) ∧
    (refresh (fun s => s) false { initState with loading := true }).1.request_id
      ≠ ({ initState with loading := true } : CtrlState).request_id + 1 :=
  ⟨rfl, by decide⟩

/-- Claim C2, amended: when no fetch is in flight, `refresh(append)`
increments the request id, sets `loading = true` and dispatches a fetch
with a snapshot query built from current state; when a fetch is in
flight, `refresh` is a no-op (no increment, no dispatch).  `next_page`'s
own guard checks only the last-page boundary, so below the boundary it
dispatches whenever not loading, and while loading its dispatch is
suppressed solely by `refresh`'s loading guard. -/
theorem c2_refresh_dispatch (norm : String → String) (append : Bool) (st : CtrlState) :
    (st.loading = false →
      refresh norm append st =
        ({ st with append_mode := append, request_id := st.request_id + 1,
                   loading := true },
         [CtrlEvent.loading_changed true],
         some (make_query norm st, st.request_id + 1))) ∧
    (st.loading = true → refresh norm append st = (st, [], Option.none)) ∧
    (st.loading = false → st.page < total_pages st →
      (next_page norm st).2.2 =
        some (make_query norm { st with page := st.page + 1 }, st.request_id + 1)) ∧
    (st.loading = true → (next_page norm st).2.2 = Option.none) := by
  refine ⟨fun h => ?_, fun h => ?_, fun h hp => ?_, fun h => ?_⟩
  · simp [refresh, emit_loading, make_query, h]
  · simp [refresh, h]
  · simp [next_page, hp, refresh, emit_loading, make_query, h]
  · by_cases hp : st.page < total_pages st <;>
      simp [next_page, hp, refresh, h]

/-- Witness for C2 (amended) at the initial state (not loading, page 1
of 1): `refresh` increments the id to 1 and dispatches. -/
theorem c2_refresh_dispatch_witness :
    refresh (fun s => s) false initState =
      ({ initState with append_mode := false, request_id := 1, loading := true },
       [CtrlEvent.loading_changed true],
       some (make_query (fun s => s) initState, 1)) :=
  (c2_refresh_dispatch (fun s => s) false initState).1 rfl

/-- Claim C9: each of `set_search`, `set_filters`, `add_filter`,
`clear_filters`, `set_sort`, `set_page_size`, `set_searchable_keys`
resets the controller's current page to 1 (each delegates to
`goto_page(1)`, and `refresh` does not change the page). -/
theorem c9_mutators_reset_page (norm : String → String) (t m : String)
    (cs ai : Bool) (n : Int) (fs : List FilterSpec) (f : FilterSpec)
    (ss : List SortSpec) (ks : List String) (st : CtrlState) :
    (set_search norm t m cs ai st).1.page = 1 ∧
    (set_filters norm fs st).1.page = 1 ∧
    (add_filter norm f st).1.page = 1 ∧
    (clear_filters norm st).1.page = 1 ∧
    (set_sort norm ss st).1.page = 1 ∧
    (set_page_size norm n st).1.page = 1 ∧
    (set_searchable_keys norm ks st).1.page = 1 := by
  refine ⟨?_, ?_, ?_, ?_, ?_, ?_, ?_⟩ <;>
    simp [set_search, set_filters, add_filter, clear_filters, set_sort,
          set_page_size, set_searchable_keys, goto_page, refresh_page_eq]

/-- For a positive divisor, the rational ceiling of `t / ps` equals the
natural-number formula `(t + ps - 1) / ps`. -/
theorem nat_ceil_div_eq_cdiv (t ps : Nat) (h : 1 ≤ ps) :
    ⌈(t : ℚ) / (ps : ℚ)⌉₊ = cdiv t ps := by
  have hps0 : 0 < ps := h
  have hpsQ : (0 : ℚ) < (ps : ℚ) := by exact_mod_cast hps0
  apply le_antisymm
  · -- ⌈t/ps⌉₊ ≤ (t + ps - 1) / ps
    apply Nat.ceil_le.mpr
    rw [div_le_iff hpsQ]
    have hdm := Nat.div_add_mod (t + ps - 1) ps
    have hmod : (t + ps - 1) % ps < ps := Nat.mod_lt _ hps0
    have hnat : t ≤ (cdiv t ps) * ps := by
      have hmc : cdiv t ps * ps = ps * cdiv t ps := Nat.mul_comm _ _
      unfold cdiv at hmc ⊢
      omega
    calc (t : ℚ) ≤ ((cdiv t ps * ps : ℕ) : ℚ) := by exact_mod_cast hnat
      _ = ((cdiv t ps : ℕ) : ℚ) * (ps : ℚ) := by push_cast; ring
  · -- (t + ps - 1) / ps ≤ ⌈t/ps⌉₊
    have hle : (t : ℚ) / (ps : ℚ) ≤ (⌈(t : ℚ) / (ps : ℚ)⌉₊ : ℚ) := Nat.le_ceil _
    rw [div_le_iff hpsQ] at hle
    have hnat : t ≤ ⌈(t : ℚ) / (ps : ℚ)⌉₊ * ps := by exact_mod_cast hle
    have hdm := Nat.div_add_mod (t + ps - 1) ps
    have hmod : (t + ps - 1) % ps < ps := Nat.mod_lt _ hps0
    have hmc : ⌈(t : ℚ) / (ps : ℚ)⌉₊ * ps = ps * ⌈(t : ℚ) / (ps : ℚ)⌉₊ :=
      Nat.mul_comm _ _
    have hd : ps * cdiv t ps + (t + ps - 1) % ps = t + ps - 1 := by
      unfold cdiv; omega
    -- from ps * cdiv + r = t + ps - 1 and t ≤ ps * ceil: cdiv ≤ ceil
    by_contra hc
    push_neg at hc
    have : ps * (⌈(t : ℚ) / (ps : ℚ)⌉₊ + 1) ≤ ps * cdiv t ps :=
      Nat.mul_le_mul_left ps hc
    have hexp : ps * (⌈(t : ℚ) / (ps : ℚ)⌉₊ + 1)
        = ps * ⌈(t : ℚ) / (ps : ℚ)⌉₊ + ps := by ring
    omega

/-- Claim C10: for `page_size ≥ 1`, `total_pages()` equals
`max(1, ceil(total_rows / page_size))` computed on naturals, and
`set_page_size` clamps its argument so the stored page size is always at
least 1 (division by zero is impossible). -/
theorem c10_total_pages_formula (norm : String → String) (n : Int)
    (st st2 : CtrlState) (h : 1 ≤ st.page_size) :
    total_pages st = max 1 (cdiv st.total_rows st.page_size) ∧
    1 ≤ (set_page_size norm n st2).1.page_size := by
  constructor
  · have hns : ¬ st.page_size ≤ 0 := by omega
    rw [total_pages, if_neg hns, nat_ceil_div_eq_cdiv _ _ h]
  · have h1 : (1 : Int) ≤ max 1 n := le_max_left _ _
    simp only [set_page_size, goto_page, refresh_page_size_eq]
    omega

/-- Witness for C10: 5 rows at page size 2 give
`max(1, ceil(5/2)) = 3` total pages, and a negative `set_page_size`
argument is clamped to a positive page size. -/
theorem c10_total_pages_formula_witness :
    total_pages { initState with total_rows := 5, page_size := 2 }
      = max 1 (cdiv 5 2) ∧
    1 ≤ (set_page_size (fun s => s) (-7) initState).1.page_size :=
  c10_total_pages_formula (fun s => s) (-7)
    { initState with total_rows := 5, page_size := 2 } initState (by decide)

/-- `sval_le` is total. -/
theorem sval_le_total (a b : SVal) : sval_le a b = true ∨ sval_le b a = true := by
  cases a <;> cases b <;> simp [sval_le] <;> first
    | omega
    | exact le_total _ _

/-- `sval_le` is transitive. -/
theorem sval_le_trans (a b c : SVal) (hab : sval_le a b = true)
    (hbc : sval_le b c = true) : sval_le a c = true := by
  cases a <;> cases b <;> cases c <;> simp_all [sval_le] <;> first
    | omega
    | exact le_trans hab hbc

/-- `key_le` is total. -/
theorem key_le_total (a b : Nat × SVal) :
    key_le a b = true ∨ key_le b a = true := by
  rcases a with ⟨ta, va⟩
  rcases b with ⟨tb, vb⟩
  by_cases h : ta = tb
  · subst h
    simpa [key_le] using sval_le_total va vb
  · simp [key_le, h, Ne.symm h]

/-- `key_le` is transitive. -/
theorem key_le_trans (a b c : Nat × SVal) (hab : key_le a b = true)
    (hbc : key_le b c = true) : key_le a c = true := by
  rcases a with ⟨ta, va⟩
  rcases b with ⟨tb, vb⟩
  rcases c with ⟨tc, vc⟩
  by_cases h1 : ta = tb <;> by_cases h2 : tb = tc <;>
    simp_all [key_le] <;> try omega
  · exact sval_le_trans _ _ _ hab hbc
  · by_cases h3 : ta = tc <;> simp_all <;> omega

/-- The model of Python's stable `sorted` produces a list that is
pairwise ordered by any total transitive Boolean comparison. -/
theorem pairwise_py_sorted {α : Type} (le : α → α → Bool)
    (htot : ∀ a b, le a b = true ∨ le b a = true)
    (htr : ∀ a b c, le a b = true → le b c = true → le a c = true)
    (l : List α) :
    (py_sorted le l).Pairwise (fun a b => le a b = true) := by
  haveI : IsTotal α (fun a b => le a b = true) := ⟨htot⟩
  haveI : IsTrans α (fun a b => le a b = true) := ⟨fun a b c => htr a b c⟩
  exact List.sorted_insertionSort _ l

/-- In a list that is pairwise "once `p`, always `p` afterwards", after
dropping the leading non-`p` elements only `p` elements remain. -/
theorem dropWhile_all_of_pairwise {α : Type} (p : α → Bool) :
    ∀ l : List α, l.Pairwise (fun a b => p a = true → p b = true) →
      ((l.dropWhile (fun r => !p r)).all p) = true := by
  intro l
  induction l with
  | nil => simp
  | cons a l ih =>
    intro hp
    rw [List.pairwise_cons] at hp
    by_cases ha : p a
    · rw [List.dropWhile_cons]
      simp only [ha, Bool.not_true, Bool.false_eq_true, if_false]
      simp only [List.all_cons, ha, Bool.true_and, List.all_eq_true]
      intro b hb
      exact hp.1 b hb ha
    · rw [List.dropWhile_cons]
      simp only [Bool.not_eq_true] at ha
      simp only [ha, Bool.not_false, if_true]
      exact ih hp.2

/-- In a list that is pairwise "`p` somewhere later forces `p` earlier",
after dropping the leading `p` elements no `p` element remains. -/
theorem dropWhile_all_not_of_pairwise {α : Type} (p : α → Bool) :
    ∀ l : List α, l.Pairwise (fun a b => p b = true → p a = true) →
      ((l.dropWhile p).all (fun r => !p r)) = true := by
  intro l
  induction l with
  | nil => simp
  | cons a l ih =>
    intro hp
    rw [List.pairwise_cons] at hp
    by_cases ha : p a = true
    · rw [List.dropWhile_cons, if_pos ha]
      exact ih hp.2
    · rw [List.dropWhile_cons, if_neg ha]
      have ha2 : p a = false := by
        cases hpa : p a
        · rfl
        · exact absurd hpa ha
      rw [List.all_cons, ha2]
      simp only [Bool.not_false, Bool.true_and, List.all_eq_true]
      intro b hb
      cases hpb : p b
      · simp
      · exact absurd (hp.1 b hb hpb) (by simp [ha2])

/-- `is_null_at` detects exactly the rows whose value is `None`/missing. -/
theorem is_null_at_iff (key : String) (r : Row) :
    is_null_at key r = true ↔ rowGet r key = Value.none := by
  unfold is_null_at
  cases h : rowGet r key <;> simp

/-- A sort key that compares below-or-equal to something can only belong
to a `None` value if that something is `None` too (the `None` tag 1 is
strictly above every non-null tag 0). -/
theorem key_le_none_imp (norm : String → String) (a b : Value)
    (h : key_le (sort_key norm a) (sort_key norm b) = true)
    (ha : a = Value.none) : b = Value.none := by
  subst ha
  cases b with
  | none => rfl
  | num i => simp [sort_key, key_le] at h
  | str s => simp [sort_key, key_le] at h
  | bool x => simp [sort_key, key_le] at h
  | list vs => simp [sort_key, key_le] at h

/-- Counterexample to C6 as stated: in descending direction the
in-memory source's sort places `None`-valued rows BEFORE the non-null
rows, not after them.  Concretely, sorting the two rows
`[{a: None}, {a: 1}]` by field `a` descending keeps the `None` row
first, so the nulls do not come after all non-null values. -/
theorem c6_sort_nulls_cex :
    nulls_last "a"
      ((apply_sort (fun s => s) [[("a", Value.none)], [("a", Value.num 1)]]
          [{ key := "a", ascending := false }]
          (List.range 2)).map
        (row_at [[("a", Value.none)], [("a", Value.num 1)]])) = false := by
  decide

/-- Claim C6, amended: in the in-memory source's sort, `None`/missing
values are placed after all non-null values in ASCENDING direction, but
in DESCENDING direction (`reverse=True`) they are placed before all
non-null values. -/
theorem c6_sort_nulls_placement (norm : String → String) (rows : List Row)
    (key : String) (idxs : List Nat) :
    nulls_last key
      ((apply_sort norm rows [{ key := key, ascending := true }] idxs).map
        (row_at rows)) = true ∧
    nulls_first key
      ((apply_sort norm rows [{ key := key, ascending := false }] idxs).map
        (row_at rows)) = true := by
  have htot : ∀ i j : Nat,
      key_le (sort_key norm (rowGet (row_at rows i) key))
             (sort_key norm (rowGet (row_at rows j) key)) = true ∨
      key_le (sort_key norm (rowGet (row_at rows j) key))
             (sort_key norm (rowGet (row_at rows i) key)) = true :=
    fun i j => key_le_total _ _
  have htr : ∀ i j k : Nat,
      key_le (sort_key norm (rowGet (row_at rows i) key))
             (sort_key norm (rowGet (row_at rows j) key)) = true →
      key_le (sort_key norm (rowGet (row_at rows j) key))
             (sort_key norm (rowGet (row_at rows k) key)) = true →
      key_le (sort_key norm (rowGet (row_at rows i) key))
             (sort_key norm (rowGet (row_at rows k) key)) = true :=
    fun i j k => key_le_trans _ _ _
  constructor
  · have hs := pairwise_py_sorted
      (fun i j => key_le (sort_key norm (rowGet (row_at rows i) key))
                         (sort_key norm (rowGet (row_at rows j) key)))
      htot htr idxs
    have hout : apply_sort norm rows [{ key := key, ascending := true }] idxs =
        py_sorted (fun i j =>
          key_le (sort_key norm (rowGet (row_at rows i) key))
                 (sort_key norm (rowGet (row_at rows j) key))) idxs := rfl
    rw [hout]
    apply dropWhile_all_of_pairwise
    rw [List.pairwise_map]
    refine hs.imp ?_
    intro i j hle hnull
    exact (is_null_at_iff key _).mpr
      (key_le_none_imp norm _ _ hle ((is_null_at_iff key _).mp hnull))
  · have hs := pairwise_py_sorted
      (fun i j => key_le (sort_key norm (rowGet (row_at rows i) key))
                         (sort_key norm (rowGet (row_at rows j) key)))
      htot htr idxs.reverse
    have hout : apply_sort norm rows [{ key := key, ascending := false }] idxs =
        (py_sorted (fun i j =>
          key_le (sort_key norm (rowGet (row_at rows i) key))
                 (sort_key norm (rowGet (row_at rows j) key))) idxs.reverse).reverse := rfl
    rw [hout]
    apply dropWhile_all_not_of_pairwise
    rw [List.pairwise_map]
    rw [List.pairwise_reverse]
    refine hs.imp ?_
    intro i j hle hnull
    exact (is_null_at_iff key _).mpr
      (key_le_none_imp norm _ _ hle ((is_null_at_iff key _).mp hnull))

/-- Every filter step maps an empty index list to an empty index list. -/
theorem filter_step_nil (norm : String → String) (rows : List Row)
    (f : FilterSpec) : filter_step norm rows [] f = [] := by
  unfold filter_step
  split_ifs <;> rfl

/-- The filter phase maps an empty index list to an empty index list. -/
theorem apply_filters_nil (norm : String → String) (rows : List Row)
    (fs : List FilterSpec) : apply_filters norm rows fs [] = [] := by
  unfold apply_filters
  induction fs with
  | nil => rfl
  | cons f fs ih =>
    rw [List.foldl_cons, filter_step_nil]
    exact ih

/-- Every sort pass maps an empty index list to an empty index list. -/
theorem sort_pass_nil (norm : String → String) (rows : List Row)
    (srt : SortSpec) : sort_pass norm rows srt [] = [] := by
  unfold sort_pass py_sorted py_sorted_rev
  split_ifs <;> rfl

/-- The sort phase maps an empty index list to an empty index list. -/
theorem apply_sort_nil (norm : String → String) (rows : List Row)
    (ss : List SortSpec) : apply_sort norm rows ss [] = [] := by
  induction ss with
  | nil => rfl
  | cons srt ss ih =>
    show sort_pass norm rows srt (apply_sort norm rows ss []) = []
    rw [ih, sort_pass_nil]

/-- Counterexample to C7 as stated: a membership filter is NOT applied
by the in-memory source.  With rows `[{k:1},{k:2},{k:3}]` and the single
filter `{k, "in", [1,3]}` every row is kept — including row index 1,
whose value 2 is not a member of the filter's collection. -/
theorem c7_membership_cex :
    apply_filters (fun s => s)
      [[("k", Value.num 1)], [("k", Value.num 2)], [("k", Value.num 3)]]
      [{ key := "k", op := "in", value := Value.list [Value.num 1, Value.num 3] }]
      (List.range 3) = [0, 1, 2] ∧
    ([Value.num 1, Value.num 3].any (fun v =>
      valueEq
        (rowGet (row_at [[("k", Value.num 1)], [("k", Value.num 2)],
          [("k", Value.num 3)]] 1) "k") v)) = false := by
  exact ⟨rfl, rfl⟩

/-- Claim C7, amended: the in-memory source has no branch for a
membership operator — a filter whose operator is none of
`igual`/`contem`/`gt`/`lt` (in particular `in`) is ignored entirely:
deleting it from the filter list does not change the kept rows.  The
remaining filters still combine as an AND conjunction. -/
theorem c7_membership_ignored (norm : String → String) (rows : List Row)
    (f : FilterSpec) (fs₁ fs₂ : List FilterSpec) (idxs : List Nat)
    (h1 : f.op ≠ "igual") (h2 : f.op ≠ "contem")
    (h3 : f.op ≠ "gt") (h4 : f.op ≠ "lt") :
    apply_filters norm rows (fs₁ ++ f :: fs₂) idxs =
      apply_filters norm rows (fs₁ ++ fs₂) idxs := by
  unfold apply_filters
  rw [List.foldl_append, List.foldl_append, List.foldl_cons]
  congr 1
  unfold filter_step
  simp [h1, h2, h3, h4]

/-- Witness for C7 (amended): a membership filter inserted in front of
an equality filter changes nothing. -/
theorem c7_membership_ignored_witness :
    apply_filters (fun s => s) [[("k", Value.num 1)], [("k", Value.num 2)]]
      ([] ++ { key := "k", op := "in", value := Value.list [Value.num 1] } ::
        [{ key := "k", op := "igual", value := Value.num 2 }])
      (List.range 2) =
    apply_filters (fun s => s) [[("k", Value.num 1)], [("k", Value.num 2)]]
      ([] ++ [{ key := "k", op := "igual", value := Value.num 2 }])
      (List.range 2) :=
  c7_membership_ignored (fun s => s) _ _ _ _ _
    (by decide) (by decide) (by decide) (by decide)

/-- Counterexample to C8 as stated: an invalid regex pattern supplied as
search text in regex mode does NOT surface as a failure.  The source
catches `re.error` (`rx = None`) and then skips every row, so
`fetch_page` returns a normal, empty page instead of raising.  Here the
engine rejects the pattern (as `re.compile("[")` does) over a one-row
data set. -/
theorem c8_invalid_regex_cex :
    fetch_page_exc (fun s => s) (fun _ _ => Option.none)
      [[("a", Value.str "x")]]
      { page := 1, page_size := 50, search_text := "[", search_mode := "regex" } =
    Except.ok { rows := [], total_rows := 0, page := 1, page_size := 50 } := by
  rfl

/-- Claim C8, amended: failures do surface to the immediate
caller/listener (a fresh fetch failure emits the `error` callback, and
export input errors raise), with one more swallowed case besides stale
results: an invalid regex pattern in regex search mode is caught inside
the in-memory port, which then matches no rows and returns an ordinary
empty page (no error). -/
theorem c8_regex_error_swallowed (norm : String → String)
    (engine : String → Bool → Option (String → Bool))
    (rows : List Row) (q : TableQuery) (st : CtrlState) (msg : String)
    (hmode : q.search_mode = "regex") (htext : q.search_text ≠ "")
    (hengine : engine q.search_text q.search_case_sensitive = Option.none) :
    fetch_page_exc norm engine rows q =
      Except.ok { rows := [], total_rows := 0, page := q.page,
                  page_size := q.page_size } ∧
    CtrlEvent.error msg ∈ (on_fail msg st.request_id st).2 := by
  constructor
  · unfold fetch_page_exc fetch_page
    have h1 : apply_search norm engine rows q (List.range rows.length) = [] := by
      unfold apply_search
      rw [if_neg htext, if_pos hmode, hengine]
    simp [h1, apply_filters_nil, apply_sort_nil]
  · unfold on_fail
    rw [if_neg (by simp)]
    simp [emit_loading]

/-- Witness for C8 (amended) at a concrete invalid pattern and a fresh
failure delivery. -/
theorem c8_regex_error_swallowed_witness :
    fetch_page_exc (fun s => s) (fun _ _ => Option.none)
      [[("a", Value.str "x")]]
      { page := 1, page_size := 50, search_text := "[", search_mode := "regex" } =
      Except.ok { rows := [], total_rows := 0, page := 1, page_size := 50 } ∧
    CtrlEvent.error "boom" ∈ (on_fail "boom" initState.request_id initState).2 :=
  c8_regex_error_swallowed (fun s => s) (fun _ _ => Option.none)
    [[("a", Value.str "x")]]
    { page := 1, page_size := 50, search_text := "[", search_mode := "regex" }
    initState "boom" rfl (by decide) rfl

/-- One-step unfolding of `iter_chunks` (the well-founded recursion does
not unfold definitionally). -/
theorem iter_chunks_unfold (port : TableQuery → TablePage) (q : TableQuery)
    (c total page done : Nat) :
    iter_chunks port q c total page done =
      if done < total then
        if (port (with_page q page c)).rows.isEmpty then
          ([], [with_page q page c], [])
        else
          ((port (with_page q page c)).rows ++
             (iter_chunks port q c total (page + 1)
               (done + (port (with_page q page c)).rows.length)).1,
           with_page q page c ::
             (iter_chunks port q c total (page + 1)
               (done + (port (with_page q page c)).rows.length)).2.1,
           prog_of done (port (with_page q page c)).rows.length total ++
             (iter_chunks port q c total (page + 1)
               (done + (port (with_page q page c)).rows.length)).2.2)
      else ([], [], []) := by
  rw [iter_chunks.eq_def]
  split_ifs with h1 h2
  · simp [h2]
  · simp [h2]
  · rfl

/-- The chunk loop performs at most `total - done` fetches: every pass
either stops or advances `done` by at least one toward `total`. -/
theorem iter_chunks_fetch_bound (port : TableQuery → TablePage)
    (q : TableQuery) (c : Nat) :
    ∀ k total page done, total - done ≤ k →
      (iter_chunks port q c total page done).2.1.length ≤ total - done := by
  intro k
  induction k with
  | zero =>
    intro total page done hk
    have hnd : ¬ done < total := by omega
    rw [iter_chunks_unfold, if_neg hnd]
    simp
  | succ k ih =>
    intro total page done hk
    by_cases h : done < total
    · rw [iter_chunks_unfold, if_pos h]
      by_cases hr : (port (with_page q page c)).rows.isEmpty
      · rw [if_pos hr]
        simp
        omega
      · rw [if_neg hr]
        have hlen : 0 < (port (with_page q page c)).rows.length := by
          cases hl : (port (with_page q page c)).rows with
          | nil => rw [hl] at hr; simp at hr
          | cons a l => simp
        have hrec := ih total (page + 1)
          (done + (port (with_page q page c)).rows.length) (by omega)
        simp only [List.length_cons]
        omega
    · rw [iter_chunks_unfold, if_neg h]
      simp

/-- Claim C4: the `all_results` iteration terminates for every data
port: the fetch count is bounded by `total - done` (each pass either
stops or advances `done` by at least one), and when an expected
non-final chunk (`done < total`) comes back empty, the loop stops at
once — that single fetch is the last, nothing more is yielded, and the
overall yield stays strictly below `total_rows` instead of looping
forever. -/
theorem c4_defensive_termination (port : TableQuery → TablePage)
    (q : TableQuery) (c total page done : Nat) (h : done < total)
    (hr : (port (with_page q page c)).rows = []) :
    (iter_chunks port q c total page done).1 = [] ∧
    (iter_chunks port q c total page done).2.1 = [with_page q page c] ∧
    done + (iter_chunks port q c total page done).1.length < total ∧
    ∀ p2 d2, (iter_chunks port q c total p2 d2).2.1.length ≤ total - d2 := by
  have hempty : (port (with_page q page c)).rows.isEmpty = true := by
    rw [hr]
    rfl
  rw [iter_chunks_unfold, if_pos h, if_pos hempty]
  exact ⟨rfl, rfl, by simpa using h,
    fun p2 d2 => iter_chunks_fetch_bound port q c (total - d2) total p2 d2 le_rfl⟩

/-- Witness for C4: a port that reports 5 total rows but returns an
empty second chunk; the loop entered at page 2 with 1 row already
yielded performs exactly that one fetch and stops short of the total. -/
theorem c4_defensive_termination_witness :
    (iter_chunks
        (fun qq => if qq.page = 1
          then { rows := [[("a", Value.num 1)]], total_rows := 5,
                 page := qq.page, page_size := qq.page_size }
          else { rows := [], total_rows := 5,
                 page := qq.page, page_size := qq.page_size })
        { page := 1, page_size := 50 } 2 5 2 1).1 = [] ∧
    (iter_chunks
        (fun qq => if qq.page = 1
          then { rows := [[("a", Value.num 1)]], total_rows := 5,
                 page := qq.page, page_size := qq.page_size }
          else { rows := [], total_rows := 5,
                 page := qq.page, page_size := qq.page_size })
        { page := 1, page_size := 50 } 2 5 2 1).2.1
      = [with_page { page := 1, page_size := 50 } 2 2] ∧
    1 + (iter_chunks
        (fun qq => if qq.page = 1
          then { rows := [[("a", Value.num 1)]], total_rows := 5,
                 page := qq.page, page_size := qq.page_size }
          else { rows := [], total_rows := 5,
                 page := qq.page, page_size := qq.page_size })
        { page := 1, page_size := 50 } 2 5 2 1).1.length < 5 := by
  have h := c4_defensive_termination
    (fun qq => if qq.page = 1
      then { rows := [[("a", Value.num 1)]], total_rows := 5,
             page := qq.page, page_size := qq.page_size }
      else { rows := [], total_rows := 5,
             page := qq.page, page_size := qq.page_size })
    { page := 1, page_size := 50 } 2 5 2 1 (by decide) rfl
  exact ⟨h.1, h.2.1, h.2.2.1⟩

/-- The initial `progress(0, total)` call followed by the per-row calls
for `n` rows is the sequence `(0, t), (1, t), …, (n, t)`. -/
theorem prog_of_zero_cons (n t : Nat) :
    (0, t) :: prog_of 0 n t = (List.range (n + 1)).map (fun i => (i, t)) := by
  rw [List.range_succ_eq_map]
  simp [prog_of, List.map_map, Function.comp_def]

/-- Claim C5: in `current_page` mode, `execute` fails with an input
error when `current_page_rows` is absent; otherwise the produced
sequence yields exactly the given rows in their original order and the
progress calls are `(0, n), (1, n), …, (n, n)` with `n` the number of
given rows — so the final call is `(n, n)` and no data-port query is
issued. -/
theorem c5_current_page_export (registry : List String) (req : ExportRequest)
    (dp : Option (TableQuery → TablePage)) (rows : List Row)
    (hmode : req.mode = "current_page")
    (hreg : registry_get registry req.fmt = Except.ok ()) :
    execute registry req dp Option.none =
      Except.error "Exportação current_page requer current_page_rows." ∧
    execute registry req dp (some rows) =
      Except.ok { rows := rows, queries := [],
                  progress := (List.range (rows.length + 1)).map
                    (fun i => (i, rows.length)),
                  total := rows.length } := by
  constructor
  · unfold execute
    rw [hreg, if_pos hmode]
  · unfold execute
    rw [hreg, if_pos hmode]
    rw [← prog_of_zero_cons]

/-- Witness for C5 at three concrete rows: three rows exported, final
progress call `(3, 3)`. -/
theorem c5_current_page_export_witness :
    execute ["xlsx"]
      { query := { page := 1, page_size := 50 }, columns := [("a", "A")],
        mode := "current_page", fmt := "xlsx", destination_path := "out.xlsx" }
      Option.none Option.none =
      Except.error "Exportação current_page requer current_page_rows." ∧
    execute ["xlsx"]
      { query := { page := 1, page_size := 50 }, columns := [("a", "A")],
        mode := "current_page", fmt := "xlsx", destination_path := "out.xlsx" }
      Option.none
      (some [[("a", Value.num 1)], [("a", Value.num 2)], [("a", Value.num 3)]]) =
      Except.ok { rows := [[("a", Value.num 1)], [("a", Value.num 2)],
                          [("a", Value.num 3)]],
                  queries := [],
                  progress := [(0, 3), (1, 3), (2, 3), (3, 3)],
                  total := 3 } := by
  have h := c5_current_page_export ["xlsx"]
    { query := { page := 1, page_size := 50 }, columns := [("a", "A")],
      mode := "current_page", fmt := "xlsx", destination_path := "out.xlsx" }
    Option.none
    [[("a", Value.num 1)], [("a", Value.num 2)], [("a", Value.num 3)]]
    rfl rfl
  exact ⟨h.1, h.2.trans (by rfl)⟩

/-- Characterization of the chunk count: `ceil(t/c) ≤ m` iff `t ≤ m*c`. -/
theorem cdiv_le_iff (t c m : Nat) (hc : 1 ≤ c) : cdiv t c ≤ m ↔ t ≤ m * c := by
  unfold cdiv
  rw [Nat.div_le_iff_le_mul_add_pred hc]
  have hmc : c * m = m * c := Nat.mul_comm c m
  omega

/-- Progress sequences concatenate: reporting `n` rows from `done` and
then `m` rows from `done + n` is reporting `n + m` rows from `done`. -/
theorem prog_of_append (d n m t : Nat) :
    prog_of d n t ++ prog_of (d + n) m t = prog_of d (n + m) t := by
  unfold prog_of
  rw [List.range_add, List.map_append, List.map_map]
  have hfun : (fun i => (d + n + i + 1, t)) =
      ((fun i => (d + i + 1, t)) ∘ fun x => n + x) := by
    funext i
    simp only [Function.comp_apply]
    congr 1
    omega
  rw [hfun]

/-- Loop invariant of `_iter_all_results` over a consistent port: when
the loop is entered at page `p ≥ 2` having already yielded exactly the
first `(p-1)*c` rows, it yields precisely the remaining rows of `all`,
fetches exactly pages `p, p+1, …, ceil(len/c)` (each query overriding
only `page`/`page_size`), and reports progress for every remaining row. -/
theorem iter_chunks_slice (all : List Row) (port : TableQuery → TablePage)
    (hport : consistent_port all port) (q : TableQuery) (c : Nat) (hc : 1 ≤ c) :
    ∀ k p, 2 ≤ p → all.length - (p - 1) * c ≤ k →
      iter_chunks port q c all.length p ((p - 1) * c) =
        (all.drop ((p - 1) * c),
         (List.range (cdiv all.length c - (p - 1))).map
           (fun j => with_page q (p + j) c),
         prog_of ((p - 1) * c) (all.length - (p - 1) * c) all.length) := by
  have hboundary : ∀ p, 2 ≤ p → ¬ (p - 1) * c < all.length →
      iter_chunks port q c all.length p ((p - 1) * c) =
        (all.drop ((p - 1) * c),
         (List.range (cdiv all.length c - (p - 1))).map
           (fun j => with_page q (p + j) c),
         prog_of ((p - 1) * c) (all.length - (p - 1) * c) all.length) := by
    intro p hp hnd
    rw [iter_chunks_unfold, if_neg hnd]
    have h1 : all.drop ((p - 1) * c) = [] := List.drop_eq_nil_of_le (by omega)
    have h2 : cdiv all.length c - (p - 1) = 0 := by
      have := (cdiv_le_iff all.length c (p - 1) hc).mpr (by omega)
      omega
    have h3 : all.length - (p - 1) * c = 0 := by omega
    rw [h1, h2, h3]
    simp [prog_of]
  intro k
  induction k with
  | zero =>
    intro p hp hk
    exact hboundary p hp (by omega)
  | succ k ih =>
    intro p hp hk
    by_cases hd : (p - 1) * c < all.length
    · have hpc : (p - 1) * c + c = p * c := by
        have hp1 : p - 1 + 1 = p := by omega
        calc (p - 1) * c + c = (p - 1 + 1) * c := by ring
          _ = p * c := by rw [hp1]
      rw [iter_chunks_unfold, if_pos hd]
      have hpg : port (with_page q p c) =
          { rows := (all.drop ((p - 1) * c)).take c,
            total_rows := all.length, page := p, page_size := c } := by
        have h := hport (with_page q p c)
        simpa [with_page, slice_page] using h
      rw [hpg]
      have hlen2 : ((all.drop ((p - 1) * c)).take c).length
          = min c (all.length - (p - 1) * c) := by
        simp [List.length_take, List.length_drop]
      have hne : ¬ ((all.drop ((p - 1) * c)).take c).isEmpty = true := by
        intro hnil
        rw [List.isEmpty_iff] at hnil
        have hlz : min c (all.length - (p - 1) * c) = 0 := by
          rw [← hlen2, hnil]
          rfl
        omega
      rw [if_neg hne]
      by_cases hcase : c < all.length - (p - 1) * c
      · -- a full chunk; the loop continues at page p+1
        have hdone : (p - 1) * c + ((all.drop ((p - 1) * c)).take c).length
            = p * c := by
          rw [hlen2]
          omega
        rw [hdone]
        have hrest := ih (p + 1) (by omega) (by
          simp only [Nat.add_sub_cancel]
          omega)
        simp only [Nat.add_sub_cancel] at hrest
        rw [hrest]
        simp only [Prod.mk.injEq]
        refine ⟨?_, ?_, ?_⟩
        · have hdd : all.drop (p * c) = (all.drop ((p - 1) * c)).drop c := by
            rw [List.drop_drop]
            congr 1
            omega
          rw [hdd, List.take_append_drop]
        · have h6 : ¬ cdiv all.length c ≤ p := by
            intro hle
            have := (cdiv_le_iff all.length c p hc).mp hle
            omega
          have hcd : cdiv all.length c - (p - 1) = (cdiv all.length c - p) + 1 := by
            omega
          rw [hcd, List.range_succ_eq_map]
          simp only [List.map_cons, List.map_map]
          congr 1
          rw [List.map_inj_left]
          intro a _
          simp only [Function.comp_apply]
          have hn : p + 1 + a = p + Nat.succ a := by omega
          rw [hn]
        · rw [hlen2, show min c (all.length - (p - 1) * c) = c from by omega,
              show p * c = (p - 1) * c + c from by omega, prog_of_append]
          congr 1
          omega
      · -- a short final chunk; the loop exits with done = total
        have hdone : (p - 1) * c + ((all.drop ((p - 1) * c)).take c).length
            = all.length := by
          rw [hlen2]
          omega
        rw [hdone, iter_chunks_unfold, if_neg (lt_irrefl all.length)]
        simp only [Prod.mk.injEq]
        refine ⟨?_, ?_, ?_⟩
        · rw [List.append_nil]
          exact List.take_of_length_le (by simp [List.length_drop]; omega)
        · have h6 : cdiv all.length c ≤ p :=
            (cdiv_le_iff all.length c p hc).mpr (by omega)
          have h7 : ¬ cdiv all.length c ≤ p - 1 := by
            intro hle
            have := (cdiv_le_iff all.length c (p - 1) hc).mp hle
            omega
          have hcd : cdiv all.length c - (p - 1) = 1 := by omega
          rw [hcd]
          have hr1 : List.range 1 = [0] := rfl
          rw [hr1]
          simp
        · rw [List.append_nil, hlen2]
          congr 1
          omega
    · exact hboundary p hp hd

/-- Full-export iteration over a consistent port: starting from the
already-fetched first chunk, exactly the whole row list is yielded, the
loop fetches pages `2, …, ceil(len/c)`, and progress is reported for
every row. -/
theorem iter_all_results_consistent (all : List Row)
    (port : TableQuery → TablePage) (req : ExportRequest)
    (hport : consistent_port all port) (hc : 1 ≤ req.chunk_page_size) :
    iter_all_results port req
      { rows := all.take req.chunk_page_size, total_rows := all.length,
        page := 1, page_size := req.chunk_page_size } all.length =
      (all,
       (List.range (max 1 (cdiv all.length req.chunk_page_size) - 1)).map
         (fun j => with_page req.query (2 + j) req.chunk_page_size),
       prog_of 0 all.length all.length) := by
  unfold iter_all_results
  simp only
  have hlen : (all.take req.chunk_page_size).length
      = min req.chunk_page_size all.length := by
    simp [List.length_take]
  rw [hlen]
  by_cases hct : all.length ≤ req.chunk_page_size
  · -- a single chunk suffices; the loop exits immediately
    have hmin : min req.chunk_page_size all.length = all.length := by omega
    rw [hmin, iter_chunks_unfold, if_neg (lt_irrefl all.length)]
    have hcd1 : cdiv all.length req.chunk_page_size ≤ 1 := by
      rw [cdiv_le_iff _ _ _ hc]
      omega
    have hmax : max 1 (cdiv all.length req.chunk_page_size) - 1 = 0 := by omega
    rw [hmax]
    simp only [List.range_zero, List.map_nil, List.append_nil]
    rw [List.take_of_length_le hct]
  · -- more than one chunk; apply the loop invariant at page 2
    have hmin : min req.chunk_page_size all.length = req.chunk_page_size := by
      omega
    rw [hmin]
    have hsl := iter_chunks_slice all port hport req.query req.chunk_page_size
      hc all.length 2 (by omega) (by omega)
    have h21 : ((2 : Nat) - 1) * req.chunk_page_size = req.chunk_page_size := by
      omega
    rw [h21] at hsl
    rw [hsl]
    have hcd1 : ¬ cdiv all.length req.chunk_page_size ≤ 0 := by
      rw [cdiv_le_iff _ _ _ hc]
      omega
    have hmax : max 1 (cdiv all.length req.chunk_page_size)
        = cdiv all.length req.chunk_page_size := by omega
    rw [hmax]
    have hpa := prog_of_append 0 req.chunk_page_size
      (all.length - req.chunk_page_size) all.length
    rw [Nat.zero_add] at hpa
    have hsum : req.chunk_page_size + (all.length - req.chunk_page_size)
        = all.length := by omega
    rw [hsum] at hpa
    rw [hpa, List.take_append_drop]

/-- Claim C3, amended: in `all_results` mode, `execute` fails with an
input error when `data_port` is absent; otherwise, over a consistent
source of `t` rows with chunk size `c ≥ 1`, it fetches page 1 at
`chunk_page_size` to learn the total and continues with pages 2, 3, …,
every chunk query being the request's original query with only `page`
and `page_size` overridden; exactly `t` rows are yielded (in order)
across `max(1, ceil(t/c))` chunk fetches — one fetch even when `t = 0`,
since the total is only learned from the first fetch — and the progress
calls are `(0,t), …, (t,t)`, the final one `(t, t)`. -/
theorem c3_all_results_export (registry : List String) (all : List Row)
    (port : TableQuery → TablePage) (req : ExportRequest)
    (cur₁ cur₂ : Option (List Row))
    (hport : consistent_port all port) (hc : 1 ≤ req.chunk_page_size)
    (hmode : req.mode = "all_results")
    (hreg : registry_get registry req.fmt = Except.ok ()) :
    execute registry req Option.none cur₁ =
      Except.error "Exportação all_results requer data_port para paginar os resultados." ∧
    execute registry req (some port) cur₂ =
      Except.ok { rows := all,
                  queries := (List.range
                      (max 1 (cdiv all.length req.chunk_page_size))).map
                    (fun j => with_page req.query (1 + j) req.chunk_page_size),
                  progress := (List.range (all.length + 1)).map
                    (fun i => (i, all.length)),
                  total := all.length } := by
  have hne : ¬ req.mode = "current_page" := by
    rw [hmode]
    decide
  constructor
  · unfold execute
    rw [hreg, if_neg hne]
  · unfold execute
    rw [hreg, if_neg hne]
    have hfq : port (with_page req.query 1 req.chunk_page_size) =
        { rows := all.take req.chunk_page_size, total_rows := all.length,
          page := 1, page_size := req.chunk_page_size } := by
      have h := hport (with_page req.query 1 req.chunk_page_size)
      simpa [with_page, slice_page] using h
    simp only [hfq]
    rw [iter_all_results_consistent all port req hport hc]
    have hq2 : with_page req.query 1 req.chunk_page_size ::
          (List.range (max 1 (cdiv all.length req.chunk_page_size) - 1)).map
            (fun j => with_page req.query (2 + j) req.chunk_page_size)
        = (List.range (max 1 (cdiv all.length req.chunk_page_size))).map
            (fun j => with_page req.query (1 + j) req.chunk_page_size) := by
      obtain ⟨m, hm⟩ : ∃ m, max 1 (cdiv all.length req.chunk_page_size)
          = m + 1 :=
        ⟨max 1 (cdiv all.length req.chunk_page_size) - 1, by omega⟩
      rw [hm]
      simp only [Nat.add_sub_cancel]
      rw [List.range_succ_eq_map]
      simp only [List.map_cons, List.map_map]
      congr 1
      rw [List.map_inj_left]
      intro a _
      simp only [Function.comp_apply]
      have hn : (2 : Nat) + a = 1 + Nat.succ a := by omega
      rw [hn]
    rw [hq2, prog_of_zero_cons]

/-- Counterexample to C3 as stated: with a consistent source of `t = 0`
rows and chunk size `c = 2`, the export still performs ONE chunk fetch
(the page-1 fetch that learns the total), while `ceil(t/c) = 0` — so
"exactly ceil(t/c) chunk fetches" fails at `t = 0`. -/
theorem c3_chunk_count_cex :
    execute ["xlsx"]
      { query := { page := 1, page_size := 50 }, columns := [],
        mode := "all_results", fmt := "xlsx", destination_path := "o",
        chunk_page_size := 2 }
      (some (fun qq => { rows := [], total_rows := 0, page := qq.page,
                         page_size := qq.page_size }))
      Option.none =
      Except.ok { rows := [],
                  queries := [with_page { page := 1, page_size := 50 } 1 2],
                  progress := [(0, 0)], total := 0 } ∧
    ¬ (1 : Nat) = (0 + 2 - 1) / 2 := by
  constructor
  · unfold execute
    simp only [iter_all_results]
    rw [iter_chunks_unfold]
    simp [registry_get, prog_of]
    rfl
  · decide

/-- Witness for C3 (amended): 5 rows at chunk size 2 are exported in
exactly 3 chunk fetches of pages 1, 2, 3 (2+2+1 rows), every chunk
query preserving the original query except `page`/`page_size`, with
final progress call `(5, 5)`. -/
theorem c3_all_results_export_witness :
    execute ["xlsx"]
      { query := { page := 1, page_size := 50 }, columns := [("n", "N")],
        mode := "all_results", fmt := "xlsx", destination_path := "o",
        chunk_page_size := 2 }
      Option.none Option.none =
      Except.error "Exportação all_results requer data_port para paginar os resultados." ∧
    execute ["xlsx"]
      { query := { page := 1, page_size := 50 }, columns := [("n", "N")],
        mode := "all_results", fmt := "xlsx", destination_path := "o",
        chunk_page_size := 2 }
      (some (fun qq =>
        { rows := slice_page
            [[("n", Value.num 1)], [("n", Value.num 2)], [("n", Value.num 3)],
             [("n", Value.num 4)], [("n", Value.num 5)]] qq.page qq.page_size,
          total_rows :=
            ([[("n", Value.num 1)], [("n", Value.num 2)], [("n", Value.num 3)],
              [("n", Value.num 4)], [("n", Value.num 5)]] : List Row).length,
          page := qq.page, page_size := qq.page_size }))
      Option.none =
      Except.ok
        { rows := [[("n", Value.num 1)], [("n", Value.num 2)], [("n", Value.num 3)],
                   [("n", Value.num 4)], [("n", Value.num 5)]],
          queries := [with_page { page := 1, page_size := 50 } 1 2,
                      with_page { page := 1, page_size := 50 } 2 2,
                      with_page { page := 1, page_size := 50 } 3 2],
          progress := [(0, 5), (1, 5), (2, 5), (3, 5), (4, 5), (5, 5)],
          total := 5 } := by
  have h := c3_all_results_export ["xlsx"]
    [[("n", Value.num 1)], [("n", Value.num 2)], [("n", Value.num 3)],
     [("n", Value.num 4)], [("n", Value.num 5)]]
    (fun qq =>
      { rows := slice_page
          [[("n", Value.num 1)], [("n", Value.num 2)], [("n", Value.num 3)],
           [("n", Value.num 4)], [("n", Value.num 5)]] qq.page qq.page_size,
        total_rows :=
          ([[("n", Value.num 1)], [("n", Value.num 2)], [("n", Value.num 3)],
            [("n", Value.num 4)], [("n", Value.num 5)]] : List Row).length,
        page := qq.page, page_size := qq.page_size })
    { query := { page := 1, page_size := 50 }, columns := [("n", "N")],
      mode := "all_results", fmt := "xlsx", destination_path := "o",
      chunk_page_size := 2 }
    Option.none Option.none (fun qq => rfl) (by decide) rfl rfl
  refine ⟨h.1, h.2.trans ?_⟩
  rfl
